import Mathlib

/-!
Shallow embedding of `ssdutils.py` (SSD-TensorFlow): anchor generation,
Jaccard overlap, ground-truth-to-anchor matching and regression-target
encoding.  Real arithmetic of the Python source is modelled exactly over
the rationals (and over the reals where `log`/`exp` are intrinsic);
`math.sqrt` is an abstract parameter `sq` since none of the verified
properties depend on its values.  Python partiality (ZeroDivisionError,
IndexError, RuntimeError) is modelled with `Except PyErr`.
-/

instance exceptDecEq {ε α : Type} [DecidableEq ε] [DecidableEq α] :
    DecidableEq (Except ε α) := fun a b =>
  match a, b with
  | .error e1, .error e2 =>
    if h : e1 = e2 then .isTrue (by rw [h])
    else .isFalse (by intro hh; cases hh; exact h rfl)
  | .error _, .ok _ => .isFalse (by intro hh; cases hh)
  | .ok _, .error _ => .isFalse (by intro hh; cases hh)
  | .ok a1, .ok a2 =>
    if h : a1 = a2 then .isTrue (by rw [h])
    else .isFalse (by intro hh; cases hh; exact h rfl)

/-- Python exceptions that the embedded code can raise. -/
inductive PyErr where
  | zeroDivisionError : PyErr
  | indexError : PyErr
  | runtimeError : String → PyErr
deriving DecidableEq, Repr

/-- Modelled from the spec: `Size` from `utils.py` (not under `src/`) —
"(width, height)", first component the width (so `size[0]` is `w`).
Polymorphic so that integral grid sizes and rational box sizes share it. -/
structure Size (α : Type) where
  w : α
  h : α
deriving DecidableEq, Repr

/-- Modelled from the spec: `Point` from `utils.py` (not under `src/`) — "(x, y)". -/
structure Point (α : Type) where
  x : α
  y : α
deriving DecidableEq, Repr

/-- The `SSDPreset` named tuple of `ssdutils.py`. -/
structure SSDPreset where
  image_size : Size ℕ
  num_maps : ℕ
  map_sizes : List (Size ℕ)
  num_anchors : ℕ
deriving DecidableEq, Repr

/-- The `Anchor` named tuple of `ssdutils.py`: proportional center and size,
grid column `x`, grid row `y`, generating scale, and feature-map index. -/
structure Anchor (α : Type) where
  center : Point α
  size : Size α
  x : ℕ
  y : ℕ
  scale : α
  map : ℕ
deriving DecidableEq, Repr

/-- Modelled from the spec: `Score` from `utils.py` (not under `src/`) —
"pairing of an anchor index and an overlap value". -/
structure Score where
  idx : ℕ
  score : ℚ
deriving DecidableEq, Repr

/-- Modelled from the spec: `Overlap` from `utils.py` (not under `src/`) —
"the single best Score (may be absent ...) plus the ordered sequence of all
Scores whose overlap exceeds a caller-supplied threshold". -/
structure Overlap where
  best : Option Score
  good : List Score
deriving DecidableEq, Repr

/-- A ground-truth box: proportional center and size (the `box` argument of
`compute_overlap` and `compute_location`). -/
structure GBox (α : Type) where
  center : Point α
  size : Size α
deriving DecidableEq, Repr

/-- The `vgg300` preset of `SSD_PRESETS`. -/
def vgg300 : SSDPreset :=
  { image_size := ⟨300, 300⟩
    num_maps := 6
    map_sizes := [⟨38, 38⟩, ⟨19, 19⟩, ⟨10, 10⟩, ⟨5, 5⟩, ⟨3, 3⟩, ⟨1, 1⟩]
    num_anchors := 11639 }

/-- The `vgg500` preset of `SSD_PRESETS`. -/
def vgg500 : SSDPreset :=
  { image_size := ⟨500, 500⟩
    num_maps := 6
    map_sizes := [⟨63, 63⟩, ⟨32, 32⟩, ⟨16, 16⟩, ⟨8, 8⟩, ⟨6, 6⟩, ⟨4, 4⟩]
    num_anchors := 32174 }

/-- The `SSD_PRESETS` dictionary, as a key-value list. -/
def SSD_PRESETS : List (String × SSDPreset) :=
  [("vgg300", vgg300), ("vgg500", vgg500)]

/-- Python `get_preset_by_name`: raises `RuntimeError('No such preset: '+pname)`
when the name is not a key of `SSD_PRESETS`. -/
def get_preset_by_name (pname : String) : Except PyErr SSDPreset :=
  match SSD_PRESETS.lookup pname with
  | none => .error (.runtimeError ("No such preset: " ++ pname))
  | some p => .ok p

/-- `SCALE_MIN` of `ssdutils.py` (`0.2`). -/
def SCALE_MIN : ℚ := 2/10

/-- `SCALE_MAX` of `ssdutils.py` (`0.9`). -/
def SCALE_MAX : ℚ := 9/10

/-- `SCALE_DIFF` of `ssdutils.py`. -/
def SCALE_DIFF : ℚ := SCALE_MAX - SCALE_MIN

/-- The scale loop of `get_anchors_for_preset`:
`for k in range(1, num_maps+1): scales.append(SCALE_MIN + SCALE_DIFF/(num_maps-1)*(k-1))`.
When `num_maps = 1` the loop body divides by zero (Python `ZeroDivisionError`);
when `num_maps = 0` the loop body never runs. -/
def computeScales (numMaps : ℕ) : Except PyErr (List ℚ) :=
  if numMaps = 1 then .error .zeroDivisionError
  else .ok ((List.range' 1 numMaps).map fun (k : ℕ) =>
    SCALE_MIN + SCALE_DIFF / ((numMaps : ℚ) - 1) * ((k : ℚ) - 1))

/-- The square-rooted aspect-ratio list of `get_anchors_for_preset`:
`list(map(sqrt, [1, 2, 3, 0.5, 1/3]))`, with `sq` standing for `math.sqrt`. -/
def aspectList (sq : ℚ → ℚ) : List ℚ :=
  [sq 1, sq 2, sq 3, sq (5/10), sq (1/3)]

/-- The list `box_sizes[scales[i]]` is assigned in iteration `i` of the
box-size loop of `get_anchors_for_preset`: `(s*ratio, s/ratio)` for each
square-rooted ratio, plus the extra square box when `i` is not last. -/
def boxSizesFor (sq : ℚ → ℚ) (scales : List ℚ) (i : ℕ) : List (ℚ × ℚ) :=
  let s := scales.getD i 0
  (aspectList sq).map (fun r => (s * r, s / r)) ++
    (if i < scales.length - 1 then
      [(sq (s * scales.getD (i + 1) 0), sq (s * scales.getD (i + 1) 0))]
    else [])

/-- The `box_sizes` dictionary of `get_anchors_for_preset`, keyed by scale;
a later iteration with an equal scale overwrites the earlier entry, exactly
like the Python `dict`. -/
def boxSizes (sq : ℚ → ℚ) (scales : List ℚ) : ℚ → List (ℚ × ℚ) :=
  (List.range scales.length).foldl
    (fun d i => Function.update d (scales.getD i 0) (boxSizesFor sq scales i))
    (fun _ => [])

/-- The anchors contributed by feature-map level `k` in
`get_anchors_for_preset`: `for i in range(fk): x = (i+0.5)/fk; for j in
range(fk): y = (j+0.5)/fk; for size in box_sizes[s]:
append(Anchor(Point(x, y), Size(size[0], size[1]), j, i, s, k))`. -/
def levelAnchors (sq : ℚ → ℚ) (scales : List ℚ) (fk : ℕ) (k : ℕ) :
    List (Anchor ℚ) :=
  let s := scales.getD k 0
  (List.range fk).flatMap fun i =>
    (List.range fk).flatMap fun j =>
      (boxSizes sq scales s).map fun size =>
        { center := ⟨((i : ℚ) + 5/10) / (fk : ℚ), ((j : ℚ) + 5/10) / (fk : ℚ)⟩
          size := ⟨size.1, size.2⟩
          x := j
          y := i
          scale := s
          map := k }

/-- Python `get_anchors_for_preset`: the scale loop (which can divide by
zero), then the anchor loop, which indexes `preset.map_sizes[k][0]` for every
`k < len(scales)` and raises `IndexError` when `map_sizes` is too short. -/
def get_anchors_for_preset (sq : ℚ → ℚ) (preset : SSDPreset) :
    Except PyErr (List (Anchor ℚ)) :=
  (computeScales preset.num_maps).bind fun scales =>
    if scales.length ≤ preset.map_sizes.length then
      .ok ((List.range scales.length).flatMap fun k =>
        levelAnchors sq scales ((preset.map_sizes.getD k ⟨0, 0⟩).w) k)
    else .error .indexError

/-- The concrete scale list produced for the two built-in presets (`K = 6`). -/
def scales6 : List ℚ := [1/5, 17/50, 12/25, 31/50, 19/25, 9/10]

theorem computeScales_six : computeScales 6 = .ok scales6 := by
  norm_num [computeScales, scales6, SCALE_MIN, SCALE_DIFF, SCALE_MAX, List.range']

theorem scales6_nodup : scales6.Nodup := by
  norm_num [scales6]

theorem boxSizes_foldl_apply (sq : ℚ → ℚ) (scales : List ℚ)
    (hnd : scales.Nodup) :
    ∀ n, n ≤ scales.length → ∀ i, i < n →
      (List.range n).foldl
        (fun d j => Function.update d (scales.getD j 0) (boxSizesFor sq scales j))
        (fun _ => []) (scales.getD i 0) = boxSizesFor sq scales i := by
  intro n
  induction n with
  | zero => intro _ i hi; exact absurd hi (Nat.not_lt_zero i)
  | succ m ih =>
    intro hn i hi
    rw [List.range_succ, List.foldl_append, List.foldl_cons, List.foldl_nil]
    rcases Nat.lt_succ_iff_lt_or_eq.mp hi with h | h
    · rw [Function.update_apply, if_neg, ih (Nat.le_of_succ_le hn) i h]
      have hi' : i < scales.length := lt_of_lt_of_le hi hn
      have hm : m < scales.length := lt_of_lt_of_le (Nat.lt_succ_self m) hn
      rw [List.getD_eq_getElem _ _ hi', List.getD_eq_getElem _ _ hm]
      simp only [ne_eq, List.Nodup.getElem_inj_iff hnd]
      omega
    · subst h
      exact Function.update_same _ _ _

/-- The `box_sizes` dictionary maps the `i`-th scale to the box list built in
iteration `i` (scales pairwise distinct, as for both built-in presets). -/
theorem boxSizes_getD (sq : ℚ → ℚ) (scales : List ℚ) (hnd : scales.Nodup)
    (i : ℕ) (hi : i < scales.length) :
    boxSizes sq scales (scales.getD i 0) = boxSizesFor sq scales i :=
  boxSizes_foldl_apply sq scales hnd scales.length le_rfl i hi

theorem length_boxSizesFor (sq : ℚ → ℚ) (scales : List ℚ) (i : ℕ) :
    (boxSizesFor sq scales i).length =
      if i < scales.length - 1 then 6 else 5 := by
  by_cases h : i < scales.length - 1 <;>
    simp [boxSizesFor, aspectList, h]

theorem length_levelAnchors (sq : ℚ → ℚ) (scales : List ℚ) (fk k : ℕ) :
    (levelAnchors sq scales fk k).length =
      fk * fk * (boxSizes sq scales (scales.getD k 0)).length := by
  simp [levelAnchors, List.length_flatMap, List.map_const', Function.comp_def,
    Nat.mul_assoc]

/-- For a six-map preset whose map-size list is long enough, the generated
anchor list is the concatenation of the six levels over `scales6`. -/
theorem anchors_eq_six (sq : ℚ → ℚ) (p : SSDPreset) (h : p.num_maps = 6)
    (h2 : 6 ≤ p.map_sizes.length) :
    get_anchors_for_preset sq p =
      .ok ((List.range 6).flatMap fun k =>
        levelAnchors sq scales6 ((p.map_sizes.getD k ⟨0, 0⟩).w) k) := by
  have hl : scales6.length = 6 := by norm_num [scales6]
  unfold get_anchors_for_preset
  rw [h, computeScales_six]
  simp only [Except.bind, hl]
  rw [if_pos (hl ▸ (hl ▸ h2))]

theorem length_anchors_300 (sq : ℚ → ℚ) :
    ∃ l, get_anchors_for_preset sq vgg300 = .ok l ∧ l.length = 11639 := by
  refine ⟨_, anchors_eq_six sq vgg300 rfl (by norm_num [vgg300]), ?_⟩
  have hr : List.range 6 = [0, 1, 2, 3, 4, 5] := rfl
  rw [hr]
  simp only [List.flatMap_cons, List.flatMap_nil, List.append_nil,
    List.length_append, length_levelAnchors]
  rw [boxSizes_getD sq scales6 scales6_nodup 0 (by norm_num [scales6]),
    boxSizes_getD sq scales6 scales6_nodup 1 (by norm_num [scales6]),
    boxSizes_getD sq scales6 scales6_nodup 2 (by norm_num [scales6]),
    boxSizes_getD sq scales6 scales6_nodup 3 (by norm_num [scales6]),
    boxSizes_getD sq scales6 scales6_nodup 4 (by norm_num [scales6]),
    boxSizes_getD sq scales6 scales6_nodup 5 (by norm_num [scales6])]
  simp only [length_boxSizesFor]
  norm_num [scales6, vgg300]

theorem length_anchors_500 (sq : ℚ → ℚ) :
    ∃ l, get_anchors_for_preset sq vgg500 = .ok l ∧ l.length = 32174 := by
  refine ⟨_, anchors_eq_six sq vgg500 rfl (by norm_num [vgg500]), ?_⟩
  have hr : List.range 6 = [0, 1, 2, 3, 4, 5] := rfl
  rw [hr]
  simp only [List.flatMap_cons, List.flatMap_nil, List.append_nil,
    List.length_append, length_levelAnchors]
  rw [boxSizes_getD sq scales6 scales6_nodup 0 (by norm_num [scales6]),
    boxSizes_getD sq scales6 scales6_nodup 1 (by norm_num [scales6]),
    boxSizes_getD sq scales6 scales6_nodup 2 (by norm_num [scales6]),
    boxSizes_getD sq scales6 scales6_nodup 3 (by norm_num [scales6]),
    boxSizes_getD sq scales6 scales6_nodup 4 (by norm_num [scales6]),
    boxSizes_getD sq scales6 scales6_nodup 5 (by norm_num [scales6])]
  simp only [length_boxSizesFor]
  norm_num [scales6, vgg500]

/-- C2: for both built-in presets the anchor sequence returned by
`get_anchors_for_preset` has exactly the preset's declared `num_anchors`
length — 11639 for the 300x300 preset and 32174 for the 500x500 preset — and
the `box_sizes` dictionary gives each of the five non-last levels 6 box
shapes per grid cell and the last level 5. -/
theorem generate_anchors_counts (sq : ℚ → ℚ) :
    (∃ l, get_anchors_for_preset sq vgg300 = .ok l ∧
      l.length = vgg300.num_anchors) ∧
    (∃ l, get_anchors_for_preset sq vgg500 = .ok l ∧
      l.length = vgg500.num_anchors) ∧
    computeScales vgg300.num_maps = .ok scales6 ∧
    computeScales vgg500.num_maps = .ok scales6 ∧
    (boxSizes sq scales6 (scales6.getD 0 0)).length = 6 ∧
    (boxSizes sq scales6 (scales6.getD 1 0)).length = 6 ∧
    (boxSizes sq scales6 (scales6.getD 2 0)).length = 6 ∧
    (boxSizes sq scales6 (scales6.getD 3 0)).length = 6 ∧
    (boxSizes sq scales6 (scales6.getD 4 0)).length = 6 ∧
    (boxSizes sq scales6 (scales6.getD 5 0)).length = 5 := by
  refine ⟨length_anchors_300 sq, length_anchors_500 sq,
    computeScales_six, computeScales_six, ?_, ?_, ?_, ?_, ?_, ?_⟩ <;>
  · first
    | (rw [boxSizes_getD sq scales6 scales6_nodup 0 (by norm_num [scales6]),
        length_boxSizesFor]; norm_num [scales6])
    | (rw [boxSizes_getD sq scales6 scales6_nodup 1 (by norm_num [scales6]),
        length_boxSizesFor]; norm_num [scales6])
    | (rw [boxSizes_getD sq scales6 scales6_nodup 2 (by norm_num [scales6]),
        length_boxSizesFor]; norm_num [scales6])
    | (rw [boxSizes_getD sq scales6 scales6_nodup 3 (by norm_num [scales6]),
        length_boxSizesFor]; norm_num [scales6])
    | (rw [boxSizes_getD sq scales6 scales6_nodup 4 (by norm_num [scales6]),
        length_boxSizesFor]; norm_num [scales6])
    | (rw [boxSizes_getD sq scales6 scales6_nodup 5 (by norm_num [scales6]),
        length_boxSizesFor]; norm_num [scales6])

/-- C6 (amended): for `K ≥ 2` feature maps the scale loop of
`get_anchors_for_preset` produces exactly the `K` linearly interpolated
values `scale(k) = 0.2 + (0.9-0.2)/(K-1)*(k-1)` for `k = 1..K`; for `K = 1`
it does NOT avoid the division by zero — the computation (and hence
`get_anchors_for_preset`) fails with a `ZeroDivisionError`. -/
theorem scales_linear_interpolation (K : ℕ) (h : 2 ≤ K) :
    (∃ l, computeScales K = .ok l ∧ l.length = K ∧
      ∀ k, 1 ≤ k → k ≤ K →
        l.getD (k - 1) 0 =
          SCALE_MIN + (SCALE_MAX - SCALE_MIN) / ((K : ℚ) - 1) * ((k : ℚ) - 1)) ∧
    computeScales 1 = .error .zeroDivisionError := by
  constructor
  · refine ⟨(List.range' 1 K).map fun (j : ℕ) =>
      SCALE_MIN + SCALE_DIFF / ((K : ℚ) - 1) * ((j : ℚ) - 1), ?_, ?_, ?_⟩
    · unfold computeScales
      rw [if_neg (by omega)]
    · rw [List.length_map, List.length_range']
    · intro k hk1 hkK
      have hlt : k - 1 < ((List.range' 1 K).map fun (j : ℕ) =>
          SCALE_MIN + SCALE_DIFF / ((K : ℚ) - 1) * ((j : ℚ) - 1)).length := by
        rw [List.length_map, List.length_range']; omega
      rw [List.getD_eq_getElem _ _ hlt, List.getElem_map,
        List.getElem_range'_1]
      have h1 : 1 + (k - 1) = k := by omega
      rw [h1]
      simp [SCALE_DIFF]
  · simp [computeScales]

/-- C6 counterexample: for a preset with a single feature map (`K = 1`)
`get_anchors_for_preset` raises `ZeroDivisionError` rather than yielding the
single scale 0.2. -/
theorem single_map_divzero :
    get_anchors_for_preset (fun q => q) ⟨⟨300, 300⟩, 1, [⟨1, 1⟩], 5⟩ =
      .error .zeroDivisionError ∧
    computeScales 1 ≠ .ok [SCALE_MIN] := by
  constructor
  · unfold get_anchors_for_preset computeScales
    rfl
  · simp [computeScales]

/-- C6 witness: the amended interpolation theorem applied at `K = 6`. -/
theorem scales_linear_interpolation_witness :
    (∃ l, computeScales 6 = .ok l ∧ l.length = 6 ∧
      ∀ k, 1 ≤ k → k ≤ 6 →
        l.getD (k - 1) 0 =
          SCALE_MIN + (SCALE_MAX - SCALE_MIN) / ((6 : ℚ) - 1) * ((k : ℚ) - 1)) ∧
    computeScales 1 = .error .zeroDivisionError :=
  scales_linear_interpolation 6 (by norm_num)


/-- Helper extracting the anchor list from a successful generation (empty
when the generation raised). -/
def okAnchors (e : Except PyErr (List (Anchor ℚ))) : List (Anchor ℚ) :=
  match e with
  | .ok l => l
  | .error _ => []

/-- C1 (amended): for every anchor produced by `get_anchors_for_preset`,
letting `f` be the grid size of the anchor's feature-map level, the anchor's
center x equals `(i+0.5)/f` where `i` is the anchor's grid ROW field `y`, and
the center y equals `(j+0.5)/f` where `j` is the grid COLUMN field `x` — the
code pairs center x with the row loop variable and center y with the column
loop variable, transposed relative to the claim. -/
theorem anchor_center_from_row_col (sq : ℚ → ℚ) (p : SSDPreset)
    (a : Anchor ℚ) (ha : a ∈ okAnchors (get_anchors_for_preset sq p)) :
    a.center.x =
      ((a.y : ℚ) + 5/10) / ((p.map_sizes.getD a.map ⟨0, 0⟩).w : ℚ) ∧
    a.center.y =
      ((a.x : ℚ) + 5/10) / ((p.map_sizes.getD a.map ⟨0, 0⟩).w : ℚ) := by
  unfold get_anchors_for_preset at ha
  cases hcs : computeScales p.num_maps with
  | error e => rw [hcs] at ha; simp [Except.bind, okAnchors] at ha
  | ok scales =>
    rw [hcs] at ha
    simp only [Except.bind] at ha
    by_cases hle : scales.length ≤ p.map_sizes.length
    · rw [if_pos hle] at ha
      simp only [okAnchors] at ha
      rw [List.mem_flatMap] at ha
      obtain ⟨k, hk, hak⟩ := ha
      unfold levelAnchors at hak
      simp only [List.mem_flatMap, List.mem_map] at hak
      obtain ⟨i, hi, j, hj, sz, hsz, rfl⟩ := hak
      constructor <;> rfl
    · rw [if_neg hle] at ha; simp [okAnchors] at ha

/-- A small two-level preset exercising a 2x2 grid. -/
def cexPreset : SSDPreset :=
  { image_size := ⟨8, 8⟩
    num_maps := 2
    map_sizes := [⟨2, 2⟩, ⟨2, 2⟩]
    num_anchors := 44 }

/-- The scale list produced for `cexPreset` (`K = 2`). -/
def scalesCex : List ℚ := [1/5, 9/10]

/-- The anchor generated for `cexPreset` at level 0, row `i = 0`, column
`j = 1`, first box shape (with `sq` the identity): its center x is
`(0+0.5)/2 = 1/4`, derived from the row field `y = 0`, not from the column
field `x = 1`. -/
def anchorCex : Anchor ℚ :=
  { center := ⟨1/4, 3/4⟩
    size := ⟨1/5, 1/5⟩
    x := 1
    y := 0
    scale := 1/5
    map := 0 }

theorem anchors_cex_eq :
    get_anchors_for_preset (fun q => q) cexPreset =
      .ok ((List.range 2).flatMap fun k =>
        levelAnchors (fun q => q) scalesCex
          ((cexPreset.map_sizes.getD k ⟨0, 0⟩).w) k) := by
  have hcs : computeScales cexPreset.num_maps = .ok scalesCex := by
    norm_num [computeScales, cexPreset, scalesCex, SCALE_MIN, SCALE_DIFF,
      SCALE_MAX, List.range']
  unfold get_anchors_for_preset
  rw [hcs]
  simp only [Except.bind]
  rw [if_pos (by norm_num [scalesCex, cexPreset])]
  rw [show scalesCex.length = 2 from by norm_num [scalesCex]]

theorem anchorCex_mem :
    anchorCex ∈ okAnchors (get_anchors_for_preset (fun q => q) cexPreset) := by
  rw [anchors_cex_eq]
  simp only [okAnchors]
  rw [List.mem_flatMap]
  refine ⟨0, by norm_num, ?_⟩
  unfold levelAnchors
  rw [List.mem_flatMap]
  refine ⟨0, by norm_num [cexPreset], ?_⟩
  rw [List.mem_flatMap]
  refine ⟨1, by norm_num [cexPreset], ?_⟩
  rw [List.mem_map]
  refine ⟨(scalesCex.getD 0 0 * (fun (q : ℚ) => q) 1,
    scalesCex.getD 0 0 / (fun (q : ℚ) => q) 1), ?_, ?_⟩
  · rw [boxSizes_getD _ _ (by norm_num [scalesCex]) 0
      (by norm_num [scalesCex])]
    unfold boxSizesFor aspectList
    simp
  · norm_num [anchorCex, scalesCex, cexPreset]

/-- C1 counterexample: `anchorCex` is produced by `get_anchors_for_preset`
for `cexPreset`, yet its center x is 1/4 and not `(x+0.5)/f = (1+0.5)/2 =
3/4` as the claim demands — center x does not derive from the column field
`x`. -/
theorem anchor_center_claim_false :
    (get_anchors_for_preset (fun q => q) cexPreset).isOk = true ∧
    anchorCex ∈ okAnchors (get_anchors_for_preset (fun q => q) cexPreset) ∧
    anchorCex.center.x ≠
      ((anchorCex.x : ℚ) + 5/10) /
        ((cexPreset.map_sizes.getD anchorCex.map ⟨0, 0⟩).w : ℚ) := by
  refine ⟨by rw [anchors_cex_eq]; rfl, anchorCex_mem, ?_⟩
  norm_num [anchorCex, cexPreset]

/-- C1 witness: the amended theorem applied to the concrete anchor
`anchorCex` of `cexPreset`. -/
theorem anchor_center_from_row_col_witness :
    anchorCex.center.x =
      ((anchorCex.y : ℚ) + 5/10) /
        ((cexPreset.map_sizes.getD anchorCex.map ⟨0, 0⟩).w : ℚ) ∧
    anchorCex.center.y =
      ((anchorCex.x : ℚ) + 5/10) /
        ((cexPreset.map_sizes.getD anchorCex.map ⟨0, 0⟩).w : ℚ) :=
  anchor_center_from_row_col (fun q => q) cexPreset anchorCex anchorCex_mem

/-- C10: `get_anchors_for_preset` reads only the width component of each
level's map size (`map_sizes[k][0]`): replacing every map size's height by
its width produces exactly the same result, anchors and error behaviour
alike. -/
theorem map_sizes_height_ignored (sq : ℚ → ℚ) (p : SSDPreset) :
    get_anchors_for_preset sq
        { p with map_sizes := p.map_sizes.map fun s => ⟨s.w, s.w⟩ } =
      get_anchors_for_preset sq p := by
  have hw : ∀ k, ((p.map_sizes.map fun s =>
        (⟨s.w, s.w⟩ : Size ℕ)).getD k ⟨0, 0⟩).w
      = (p.map_sizes.getD k ⟨0, 0⟩).w := by
    intro k
    by_cases hk : k < p.map_sizes.length
    · rw [List.getD_eq_getElem _ _ (by simpa using hk),
        List.getD_eq_getElem _ _ hk, List.getElem_map]
    · rw [List.getD_eq_default _ _ (by simpa using Nat.le_of_not_lt hk),
        List.getD_eq_default _ _ (Nat.le_of_not_lt hk)]
  unfold get_anchors_for_preset
  simp only [List.length_map]
  cases computeScales p.num_maps with
  | error e => rfl
  | ok scales =>
    simp only [Except.bind]
    by_cases hle : scales.length ≤ p.map_sizes.length
    · rw [if_pos hle, if_pos hle]
      congr 1
      exact List.flatMap_congr fun k hk => by rw [hw k]
    · rw [if_neg hle, if_neg hle]

/-- Modelled from the spec: `prop2abs` from `utils.py` (not under `src/`) —
conversion from the proportional center+size representation to absolute
`(xmin, xmax, ymin, ymax)` coordinates for a reference image size. -/
def prop2abs (center : Point ℚ) (size : Size ℚ) (img : Size ℕ) :
    ℚ × ℚ × ℚ × ℚ :=
  ((center.x - size.w / 2) * (img.w : ℚ),
   (center.x + size.w / 2) * (img.w : ℚ),
   (center.y - size.h / 2) * (img.h : ℚ),
   (center.y + size.h / 2) * (img.h : ℚ))

/-- Python `jaccard_overlap`: four early-exit guards, then
`intersection / union`; the division raises `ZeroDivisionError` when the
union is zero (Python float division by `0.0`). -/
def jaccard_overlap (params1 params2 : ℚ × ℚ × ℚ × ℚ) : Except PyErr ℚ :=
  let (xmin1, xmax1, ymin1, ymax1) := params1
  let (xmin2, xmax2, ymin2, ymax2) := params2
  if xmax2 ≤ xmin1 then .ok 0
  else if xmax1 ≤ xmin2 then .ok 0
  else if ymax2 ≤ ymin1 then .ok 0
  else if ymax1 ≤ ymin2 then .ok 0
  else
    let xmin := max xmin1 xmin2
    let xmax := min xmax1 xmax2
    let ymin := max ymin1 ymin2
    let ymax := min ymax1 ymax2
    let w := xmax - xmin
    let h := ymax - ymin
    let intersection := w * h
    let w1 := xmax1 - xmin1
    let h1 := ymax1 - ymin1
    let w2 := xmax2 - xmin2
    let h2 := ymax2 - ymin2
    let union := w1 * h1 + w2 * h2 - intersection
    if union = 0 then .error .zeroDivisionError
    else .ok (intersection / union)

/-- The fixed reference image size of `compute_overlap`
(`imgsize = Size(1000, 1000)`). -/
def imgSizeRef : Size ℕ := ⟨1000, 1000⟩

/-- The overlap computed for one anchor inside the loop of
`compute_overlap`. -/
def anchorOverlap (bparams : ℚ × ℚ × ℚ × ℚ) (a : Anchor ℚ) : Except PyErr ℚ :=
  jaccard_overlap bparams (prop2abs a.center a.size imgSizeRef)

/-- The best-update of one loop iteration of `compute_overlap`
(`elif not best or best.score < jaccard: best = Score(i, jaccard)`);
only reached when the overlap is nonzero. -/
def bestStep (i : ℕ) (jaccard : ℚ) (best : Option Score) : Option Score :=
  match best with
  | none => some ⟨i, jaccard⟩
  | some b => if b.score < jaccard then some ⟨i, jaccard⟩ else some b

/-- The loop of `compute_overlap` over the remaining anchors, carrying the
running index and the `best`/`good` accumulators; an exception raised by
`jaccard_overlap` aborts the whole computation. -/
def overlapLoop (bparams : ℚ × ℚ × ℚ × ℚ) (threshold : ℚ) :
    List (Anchor ℚ) → ℕ → Option Score → List Score → Except PyErr Overlap
  | [], _, best, good => .ok ⟨best, good⟩
  | a :: rest, i, best, good =>
    match anchorOverlap bparams a with
    | .error e => .error e
    | .ok jaccard =>
      if jaccard = 0 then overlapLoop bparams threshold rest (i + 1) best good
      else
        overlapLoop bparams threshold rest (i + 1) (bestStep i jaccard best)
          (if threshold < jaccard then good ++ [⟨i, jaccard⟩] else good)

/-- Python `compute_overlap`: converts the box with the fixed 1000x1000
reference, then runs the loop from index 0 with `best = None`, `good = []`. -/
def compute_overlap (box : GBox ℚ) (anchors : List (Anchor ℚ))
    (threshold : ℚ) : Except PyErr Overlap :=
  overlapLoop (prop2abs box.center box.size imgSizeRef) threshold anchors 0
    none []

/-- Value of a successful overlap computation (0 for an error; only used
under a success hypothesis). -/
def okVal (e : Except PyErr ℚ) : ℚ :=
  match e with
  | .ok v => v
  | .error _ => 0

/-- Pure model of the `best` accumulator over the list of overlap values. -/
def bestVals : List ℚ → ℕ → Option Score → Option Score
  | [], _, best => best
  | v :: vs, i, best =>
    if v = 0 then bestVals vs (i + 1) best
    else bestVals vs (i + 1) (bestStep i v best)

/-- Pure model of the `good` accumulator over the list of overlap values. -/
def goodVals (threshold : ℚ) : List ℚ → ℕ → List Score
  | [], _ => []
  | v :: vs, i =>
    if v = 0 then goodVals threshold vs (i + 1)
    else (if threshold < v then [⟨i, v⟩] else []) ++ goodVals threshold vs (i + 1)

theorem overlapLoop_ok_success (bparams : ℚ × ℚ × ℚ × ℚ) (threshold : ℚ) :
    ∀ (rest : List (Anchor ℚ)) (i : ℕ) (best : Option Score)
      (good : List Score) (ov : Overlap),
      overlapLoop bparams threshold rest i best good = .ok ov →
      ∀ a ∈ rest, (anchorOverlap bparams a).isOk = true := by
  intro rest
  induction rest with
  | nil => intro _ _ _ _ _ a ha; cases ha
  | cons b rest ih =>
    intro i best good ov hov a ha
    rw [overlapLoop] at hov
    cases hab : anchorOverlap bparams b with
    | error e => rw [hab] at hov; cases hov
    | ok j =>
      rw [hab] at hov
      dsimp only at hov
      rcases List.mem_cons.mp ha with h | h
      · subst h; rw [hab]; rfl
      · by_cases hj : j = 0
        · rw [if_pos hj] at hov
          exact ih (i + 1) best good ov hov a h
        · rw [if_neg hj] at hov
          exact ih (i + 1) _ _ ov hov a h

theorem overlapLoop_ok_eq (bparams : ℚ × ℚ × ℚ × ℚ) (threshold : ℚ) :
    ∀ (rest : List (Anchor ℚ)) (i : ℕ) (best : Option Score)
      (good : List Score),
      (∀ a ∈ rest, (anchorOverlap bparams a).isOk = true) →
      overlapLoop bparams threshold rest i best good =
        .ok ⟨bestVals (rest.map fun a => okVal (anchorOverlap bparams a)) i best,
          good ++ goodVals threshold
            (rest.map fun a => okVal (anchorOverlap bparams a)) i⟩ := by
  intro rest
  induction rest with
  | nil => intro i best good _; simp [overlapLoop, bestVals, goodVals]
  | cons b rest ih =>
    intro i best good hok
    rw [overlapLoop]
    cases hab : anchorOverlap bparams b with
    | error e =>
      have hb := hok b (List.mem_cons_self b rest)
      rw [hab] at hb
      simp [Except.isOk, Except.toBool] at hb
    | ok j =>
      have hrest : ∀ a ∈ rest, (anchorOverlap bparams a).isOk = true :=
        fun a ha => hok a (List.mem_cons_of_mem b ha)
      dsimp only
      rw [List.map_cons, hab]
      show _ = Except.ok ⟨bestVals (okVal (Except.ok j) :: _) i best, _⟩
      rw [bestVals, goodVals]
      simp only [show ∀ v : ℚ, okVal (Except.ok v) = v from fun _ => rfl]
      by_cases hj : j = 0
      · rw [if_pos hj, if_pos hj, if_pos hj, ih (i + 1) best good hrest]
      · rw [if_neg hj, if_neg hj, if_neg hj,
          ih (i + 1) (bestStep i j best) _ hrest]
        by_cases hth : threshold < j
        · rw [if_pos hth, if_pos hth, List.append_assoc]
        · rw [if_neg hth, if_neg hth, List.nil_append]

theorem bestStep_ne_none (i : ℕ) (v : ℚ) (best : Option Score) :
    bestStep i v best ≠ none := by
  cases best with
  | none => simp [bestStep]
  | some b => by_cases h : b.score < v <;> simp [bestStep, h]

theorem bestVals_none_iff :
    ∀ (vs : List ℚ) (i : ℕ) (best : Option Score),
      bestVals vs i best = none ↔ (best = none ∧ ∀ v ∈ vs, v = 0) := by
  intro vs
  induction vs with
  | nil => intro i best; simp [bestVals]
  | cons v vs ih =>
    intro i best
    rw [bestVals]
    by_cases hv : v = 0
    · rw [if_pos hv, ih]
      constructor
      · rintro ⟨h1, h2⟩
        refine ⟨h1, ?_⟩
        intro x hx
        rcases List.mem_cons.mp hx with h | h
        · subst h; exact hv
        · exact h2 x h
      · rintro ⟨h1, h2⟩
        exact ⟨h1, fun x hx => h2 x (List.mem_cons_of_mem v hx)⟩
    · rw [if_neg hv, ih]
      constructor
      · rintro ⟨h1, _⟩
        exact absurd h1 (bestStep_ne_none i v best)
      · rintro ⟨_, hall⟩
        exact absurd (hall v (List.mem_cons_self v vs)) hv

theorem bestVals_some_spec :
    ∀ (vs : List ℚ) (i : ℕ) (best : Option Score) (s : Score),
      bestVals vs i best = some s →
      (best = some s ∧
        ∀ t v, vs.get? t = some v → v ≠ 0 → v ≤ s.score) ∨
      (∃ t, vs.get? t = some s.score ∧ s.idx = i + t ∧ s.score ≠ 0 ∧
        (∀ b0, best = some b0 → b0.score < s.score) ∧
        (∀ u v, vs.get? u = some v → v ≠ 0 → u < t → v < s.score) ∧
        (∀ u v, vs.get? u = some v → v ≠ 0 → v ≤ s.score)) := by
  intro vs
  induction vs with
  | nil =>
    intro i best s h
    rw [bestVals] at h
    left
    refine ⟨h, ?_⟩
    intro t v hv
    simp at hv
  | cons v vs ih =>
    intro i best s h
    rw [bestVals] at h
    by_cases hv : v = 0
    · rw [if_pos hv] at h
      rcases ih (i + 1) best s h with
        ⟨h1, h2⟩ | ⟨t, ht, hidx, hnz, hb0, hearl, hall⟩
      · left
        refine ⟨h1, ?_⟩
        intro t w hw hnzw
        cases t with
        | zero =>
          rw [List.get?_cons_zero] at hw
          injection hw with hw
          exact absurd (hw ▸ hv) hnzw
        | succ t => exact h2 t w (by rwa [List.get?_cons_succ] at hw) hnzw
      · right
        refine ⟨t + 1, by rwa [List.get?_cons_succ], by omega, hnz, hb0, ?_, ?_⟩
        · intro u w hw hnzw hu
          cases u with
          | zero =>
            rw [List.get?_cons_zero] at hw
            injection hw with hw
            exact absurd (hw ▸ hv) hnzw
          | succ u =>
            exact hearl u w (by rwa [List.get?_cons_succ] at hw) hnzw
              (by omega)
        · intro u w hw hnzw
          cases u with
          | zero =>
            rw [List.get?_cons_zero] at hw
            injection hw with hw
            exact absurd (hw ▸ hv) hnzw
          | succ u =>
            exact hall u w (by rwa [List.get?_cons_succ] at hw) hnzw
    · rw [if_neg hv] at h
      have hbs : ∃ b1, bestStep i v best = some b1 ∧ v ≤ b1.score ∧
          (∀ b0, best = some b0 → b0.score ≤ b1.score) ∧
          ((b1 = ⟨i, v⟩ ∧ ∀ b0, best = some b0 → b0.score < v) ∨
            ∃ b0, best = some b0 ∧ b1 = b0) := by
        cases best with
        | none =>
          exact ⟨⟨i, v⟩, rfl, le_refl v,
            (by intro b0 hb0; cases hb0),
            Or.inl ⟨rfl, (by intro b0 hb0; cases hb0)⟩⟩
        | some b0 =>
          by_cases hlt : b0.score < v
          · refine ⟨⟨i, v⟩, (by rw [bestStep, if_pos hlt]), le_refl v,
              ?_, Or.inl ⟨rfl, ?_⟩⟩
            · intro b0' hb0'
              injection hb0' with hb0'
              subst hb0'
              exact le_of_lt hlt
            · intro b0' hb0'
              injection hb0' with hb0'
              subst hb0'
              exact hlt
          · refine ⟨b0, (by rw [bestStep, if_neg hlt]), le_of_not_lt hlt,
              ?_, Or.inr ⟨b0, rfl, rfl⟩⟩
            intro b0' hb0'
            injection hb0' with hb0'
            subst hb0'
            exact le_refl _
      obtain ⟨b1, hb1eq, hvle, hb0le, hb1cases⟩ := hbs
      rw [hb1eq] at h
      rcases ih (i + 1) (some b1) s h with
        ⟨h1, h2⟩ | ⟨t, ht, hidx, hnz, hb0, hearl, hall⟩
      · -- s = b1: either ⟨i, v⟩ freshly installed, or the surviving old best
        injection h1 with h1
        subst h1
        rcases hb1cases with ⟨hb1, hstrict⟩ | ⟨b0, hbest, hb1⟩
        · -- s = ⟨i, v⟩ installed at index i (head position)
          right
          refine ⟨0, (by rw [List.get?_cons_zero, hb1]),
            (by rw [hb1]; simp), (by rw [hb1]; exact hv), ?_, ?_, ?_⟩
          · intro b0 hbest0
            rw [hb1]
            exact hstrict b0 hbest0
          · intro u w hw hnzw hu
            exact absurd hu (Nat.not_lt_zero u)
          · intro u w hw hnzw
            cases u with
            | zero =>
              rw [List.get?_cons_zero] at hw
              injection hw with hw
              subst hw
              rw [hb1]
            | succ u =>
              exact h2 u w (by rwa [List.get?_cons_succ] at hw) hnzw
        · -- s = b0: the old best survives every later value
          subst hb1
          left
          refine ⟨hbest, ?_⟩
          intro t w hw hnzw
          cases t with
          | zero =>
            rw [List.get?_cons_zero] at hw
            injection hw with hw
            subst hw
            exact hvle
          | succ t => exact h2 t w (by rwa [List.get?_cons_succ] at hw) hnzw
      · -- s comes from a later position
        right
        refine ⟨t + 1, by rwa [List.get?_cons_succ], by omega, hnz, ?_, ?_, ?_⟩
        · intro b0 hbest0
          exact lt_of_le_of_lt (hb0le b0 hbest0) (hb0 b1 rfl)
        · intro u w hw hnzw hu
          cases u with
          | zero =>
            rw [List.get?_cons_zero] at hw
            injection hw with hw
            subst hw
            exact lt_of_le_of_lt hvle (hb0 b1 rfl)
          | succ u =>
            exact hearl u w (by rwa [List.get?_cons_succ] at hw) hnzw
              (by omega)
        · intro u w hw hnzw
          cases u with
          | zero =>
            rw [List.get?_cons_zero] at hw
            injection hw with hw
            subst hw
            exact le_of_lt (lt_of_le_of_lt hvle (hb0 b1 rfl))
          | succ u =>
            exact hall u w (by rwa [List.get?_cons_succ] at hw) hnzw

theorem goodVals_mem_spec (threshold : ℚ) :
    ∀ (vs : List ℚ) (i : ℕ) (s : Score), s ∈ goodVals threshold vs i →
      ∃ t, vs.get? t = some s.score ∧ s.idx = i + t ∧ s.score ≠ 0 ∧
        threshold < s.score := by
  intro vs
  induction vs with
  | nil => intro i s hs; simp [goodVals] at hs
  | cons v vs ih =>
    intro i s hs
    rw [goodVals] at hs
    by_cases hv : v = 0
    · rw [if_pos hv] at hs
      obtain ⟨t, ht, hidx, hnz, hth⟩ := ih (i + 1) s hs
      exact ⟨t + 1, (by rwa [List.get?_cons_succ]), (by omega), hnz, hth⟩
    · rw [if_neg hv] at hs
      rcases List.mem_append.mp hs with h | h
      · by_cases hth : threshold < v
        · rw [if_pos hth] at h
          rcases List.mem_singleton.mp h with rfl
          exact ⟨0, (by rw [List.get?_cons_zero]), rfl, hv, hth⟩
        · rw [if_neg hth] at h
          cases h
      · obtain ⟨t, ht, hidx, hnz, hth⟩ := ih (i + 1) s h
        exact ⟨t + 1, (by rwa [List.get?_cons_succ]), (by omega), hnz, hth⟩

theorem goodVals_mem_of (threshold : ℚ) :
    ∀ (vs : List ℚ) (t : ℕ) (i : ℕ) (v : ℚ), vs.get? t = some v → v ≠ 0 →
      threshold < v → (⟨i + t, v⟩ : Score) ∈ goodVals threshold vs i := by
  intro vs
  induction vs with
  | nil => intro t i v hv; simp at hv
  | cons w vs ih =>
    intro t i v hv hnz hth
    rw [goodVals]
    cases t with
    | zero =>
      rw [List.get?_cons_zero] at hv
      injection hv with hv
      subst hv
      rw [if_neg hnz, if_pos hth]
      exact List.mem_append.mpr (Or.inl (by simp))
    | succ t =>
      rw [List.get?_cons_succ] at hv
      have hmem := ih t (i + 1) v hv hnz hth
      have hidx : i + 1 + t = i + (t + 1) := by omega
      rw [hidx] at hmem
      by_cases hw : w = 0
      · rwa [if_pos hw]
      · rw [if_neg hw]
        exact List.mem_append.mpr (Or.inr hmem)

theorem goodVals_idx_ge (threshold : ℚ) :
    ∀ (vs : List ℚ) (i : ℕ) (s : Score), s ∈ goodVals threshold vs i →
      i ≤ s.idx := by
  intro vs i s hs
  obtain ⟨t, _, hidx, _, _⟩ := goodVals_mem_spec threshold vs i s hs
  omega

theorem goodVals_idx_sorted (threshold : ℚ) :
    ∀ (vs : List ℚ) (i : ℕ),
      (goodVals threshold vs i).Pairwise fun a b => a.idx < b.idx := by
  intro vs
  induction vs with
  | nil => intro i; simp [goodVals]
  | cons v vs ih =>
    intro i
    rw [goodVals]
    by_cases hv : v = 0
    · rw [if_pos hv]; exact ih (i + 1)
    · rw [if_neg hv]
      refine List.pairwise_append.mpr ⟨?_, ih (i + 1), ?_⟩
      · by_cases hth : threshold < v <;> simp [hth]
      · intro a ha b hb
        by_cases hth : threshold < v
        · rw [if_pos hth] at ha
          rcases List.mem_singleton.mp ha with rfl
          have hbge := goodVals_idx_ge threshold vs (i + 1) b hb
          show i < b.idx
          omega
        · rw [if_neg hth] at ha
          cases ha

theorem isOk_exists {α : Type} (e : Except PyErr α) (h : e.isOk = true) :
    ∃ r, e = .ok r := by
  cases e with
  | ok v => exact ⟨v, rfl⟩
  | error e => simp [Except.isOk, Except.toBool] at h

theorem compute_overlap_ok (box : GBox ℚ) (anchors : List (Anchor ℚ))
    (threshold : ℚ) (ov : Overlap)
    (h : compute_overlap box anchors threshold = .ok ov) :
    (∀ a ∈ anchors,
      (anchorOverlap (prop2abs box.center box.size imgSizeRef) a).isOk
        = true) ∧
    ov.best = bestVals (anchors.map fun a =>
      okVal (anchorOverlap (prop2abs box.center box.size imgSizeRef) a))
      0 none ∧
    ov.good = goodVals threshold (anchors.map fun a =>
      okVal (anchorOverlap (prop2abs box.center box.size imgSizeRef) a)) 0 := by
  rw [compute_overlap] at h
  have hok := overlapLoop_ok_success _ threshold anchors 0 none [] ov h
  have heq := overlapLoop_ok_eq _ threshold anchors 0 none [] hok
  rw [heq] at h
  injection h with h
  subst h
  exact ⟨hok, rfl, (List.nil_append _).symm⟩

/-- C3 (amended): when `compute_overlap` returns, `best` is absent exactly
when every anchor's overlap with the box is zero, and otherwise `best` pairs
the earliest anchor index attaining the maximum NONZERO overlap with its
overlap value (a later anchor with equal overlap never replaces it).  The
claim said "maximum positive overlap": overlaps are positive for genuine
boxes, but a degenerate anchor with a negative size component can give a
negative overlap value, which the loop still installs as `best`. -/
theorem match_best_spec (box : GBox ℚ) (anchors : List (Anchor ℚ))
    (threshold : ℚ) (ov : Overlap)
    (h : compute_overlap box anchors threshold = .ok ov) :
    (ov.best = none ↔ ∀ a ∈ anchors,
      anchorOverlap (prop2abs box.center box.size imgSizeRef) a = .ok 0) ∧
    (∀ s, ov.best = some s →
      ∃ a, anchors.get? s.idx = some a ∧
        anchorOverlap (prop2abs box.center box.size imgSizeRef) a
          = .ok s.score ∧
        s.score ≠ 0 ∧
        (∀ t b r, anchors.get? t = some b →
          anchorOverlap (prop2abs box.center box.size imgSizeRef) b = .ok r →
          r ≠ 0 → r ≤ s.score ∧ (r = s.score → s.idx ≤ t))) := by
  obtain ⟨hok, hbest, hgood⟩ := compute_overlap_ok box anchors threshold ov h
  constructor
  · rw [hbest, bestVals_none_iff]
    constructor
    · rintro ⟨-, hall⟩ a ha
      have h1 := hall (okVal (anchorOverlap
        (prop2abs box.center box.size imgSizeRef) a)) (List.mem_map_of_mem _ ha)
      obtain ⟨r, hr⟩ := isOk_exists _ (hok a ha)
      rw [hr] at h1 ⊢
      rw [show okVal (Except.ok r) = r from rfl] at h1
      rw [h1]
    · intro hall
      refine ⟨rfl, ?_⟩
      intro w hw
      rw [List.mem_map] at hw
      obtain ⟨a, ha, rfl⟩ := hw
      rw [hall a ha]
      rfl
  · intro s hs
    rw [hbest] at hs
    rcases bestVals_some_spec _ 0 none s hs with
      ⟨h1, _⟩ | ⟨t, ht, hidx, hnz, _, hearl, hall⟩
    · cases h1
    · rw [List.get?_map] at ht
      cases hat : anchors.get? t with
      | none => rw [hat] at ht; cases ht
      | some a =>
        rw [hat] at ht
        injection ht with ht
        dsimp only at ht
        obtain ⟨r, hr⟩ := isOk_exists _ (hok a (List.get?_mem hat))
        have hrs : r = s.score := by
          rw [hr] at ht
          exact ht
        have hidx0 : s.idx = t := by omega
        refine ⟨a, (by rw [hidx0]; exact hat), (by rw [hr, hrs]), hnz, ?_⟩
        intro u b q hub hq hqnz
        have hq' : (anchors.map fun a =>
            okVal (anchorOverlap (prop2abs box.center box.size imgSizeRef) a)).get? u
            = some q := by
          rw [List.get?_map, hub]
          show some (okVal (anchorOverlap
            (prop2abs box.center box.size imgSizeRef) b)) = some q
          rw [hq]
          rfl
        refine ⟨hall u q hq' hqnz, ?_⟩
        intro hqs
        by_contra hts
        have hut : u < t := by omega
        exact absurd hqs (ne_of_lt (hearl u q hq' hqnz hut))

/-- C4 (amended): when `compute_overlap` returns, `good` contains a Score
for every anchor whose overlap with the box is NONZERO and strictly exceeds
the threshold, contains no Score whose overlap is less than or equal to the
threshold, and is listed in ascending anchor-index order rather than sorted
by score.  The claim omitted "nonzero": an anchor with overlap exactly 0 is
skipped by the loop's `continue` even when the threshold is negative, so 0
can strictly exceed the threshold and still be excluded. -/
theorem match_good_spec (box : GBox ℚ) (anchors : List (Anchor ℚ))
    (threshold : ℚ) (ov : Overlap)
    (h : compute_overlap box anchors threshold = .ok ov) :
    (∀ s ∈ ov.good, ∃ a, anchors.get? s.idx = some a ∧
      anchorOverlap (prop2abs box.center box.size imgSizeRef) a
        = .ok s.score ∧
      s.score ≠ 0 ∧ threshold < s.score) ∧
    (∀ t a r, anchors.get? t = some a →
      anchorOverlap (prop2abs box.center box.size imgSizeRef) a = .ok r →
      r ≠ 0 → threshold < r → (⟨t, r⟩ : Score) ∈ ov.good) ∧
    ov.good.Pairwise (fun s1 s2 => s1.idx < s2.idx) := by
  obtain ⟨hok, hbest, hgood⟩ := compute_overlap_ok box anchors threshold ov h
  refine ⟨?_, ?_, ?_⟩
  · intro s hs
    rw [hgood] at hs
    obtain ⟨t, ht, hidx, hnz, hth⟩ := goodVals_mem_spec threshold _ 0 s hs
    rw [List.get?_map] at ht
    cases hat : anchors.get? t with
    | none => rw [hat] at ht; cases ht
    | some a =>
      rw [hat] at ht
      injection ht with ht
      dsimp only at ht
      obtain ⟨r, hr⟩ := isOk_exists _ (hok a (List.get?_mem hat))
      have hidx0 : s.idx = t := by omega
      refine ⟨a, (by rw [hidx0]; exact hat), ?_, hnz, hth⟩
      rw [hr]
      rw [hr, show okVal (Except.ok r) = r from rfl] at ht
      rw [ht]
  · intro t a r hat har hnz hth
    rw [hgood]
    have hq' : (anchors.map fun a =>
        okVal (anchorOverlap (prop2abs box.center box.size imgSizeRef) a)).get? t
        = some r := by
      rw [List.get?_map, hat]
      show some (okVal (anchorOverlap
        (prop2abs box.center box.size imgSizeRef) a)) = some r
      rw [har]
      rfl
    have hmem := goodVals_mem_of threshold _ t 0 r hq' hnz hth
    simpa using hmem
  · rw [hgood]
    exact goodVals_idx_sorted threshold _ 0

/-- C5 (amended): for well-formed boxes (min ≤ max on both axes) at least
one of which has positive area, `jaccard_overlap` never divides by zero and
returns a value, and a box with zero area yields overlap 0.  The
unrestricted claim is false: when BOTH boxes have zero area with strictly
crossing extents (a zero-width box crossing a zero-height box) the union is
0 and the division raises `ZeroDivisionError`. -/
theorem jaccard_no_divzero
    (xmin1 xmax1 ymin1 ymax1 xmin2 xmax2 ymin2 ymax2 : ℚ)
    (wf1x : xmin1 ≤ xmax1) (wf1y : ymin1 ≤ ymax1)
    (wf2x : xmin2 ≤ xmax2) (wf2y : ymin2 ≤ ymax2)
    (hpos : 0 < (xmax1 - xmin1) * (ymax1 - ymin1) ∨
      0 < (xmax2 - xmin2) * (ymax2 - ymin2)) :
    ∃ r, jaccard_overlap (xmin1, xmax1, ymin1, ymax1)
        (xmin2, xmax2, ymin2, ymax2) = .ok r ∧
      (((xmax1 - xmin1) * (ymax1 - ymin1) = 0 ∨
        (xmax2 - xmin2) * (ymax2 - ymin2) = 0) → r = 0) := by
  simp only [jaccard_overlap]
  split_ifs with g1 g2 g3 g4 g5
  · exact ⟨0, rfl, fun _ => rfl⟩
  · exact ⟨0, rfl, fun _ => rfl⟩
  · exact ⟨0, rfl, fun _ => rfl⟩
  · exact ⟨0, rfl, fun _ => rfl⟩
  all_goals {
    push_neg at g1 g2 g3 g4
    have hmaxmin : max xmin1 xmin2 ≤ min xmax1 xmax2 :=
      max_le (le_min wf1x g1.le) (le_min g2.le wf2x)
    have hmaxminy : max ymin1 ymin2 ≤ min ymax1 ymax2 :=
      max_le (le_min wf1y g3.le) (le_min g4.le wf2y)
    have hW0 : 0 ≤ min xmax1 xmax2 - max xmin1 xmin2 := by linarith
    have hH0 : 0 ≤ min ymax1 ymax2 - max ymin1 ymin2 := by linarith
    have hWw1 : min xmax1 xmax2 - max xmin1 xmin2 ≤ xmax1 - xmin1 := by
      have h1 := min_le_left xmax1 xmax2
      have h2 := le_max_left xmin1 xmin2
      linarith
    have hWw2 : min xmax1 xmax2 - max xmin1 xmin2 ≤ xmax2 - xmin2 := by
      have h1 := min_le_right xmax1 xmax2
      have h2 := le_max_right xmin1 xmin2
      linarith
    have hHh1 : min ymax1 ymax2 - max ymin1 ymin2 ≤ ymax1 - ymin1 := by
      have h1 := min_le_left ymax1 ymax2
      have h2 := le_max_left ymin1 ymin2
      linarith
    have hHh2 : min ymax1 ymax2 - max ymin1 ymin2 ≤ ymax2 - ymin2 := by
      have h1 := min_le_right ymax1 ymax2
      have h2 := le_max_right ymin1 ymin2
      linarith
    have hI0 : 0 ≤ (min xmax1 xmax2 - max xmin1 xmin2) *
        (min ymax1 ymax2 - max ymin1 ymin2) := mul_nonneg hW0 hH0
    have hIA1 : (min xmax1 xmax2 - max xmin1 xmin2) *
        (min ymax1 ymax2 - max ymin1 ymin2) ≤
        (xmax1 - xmin1) * (ymax1 - ymin1) :=
      mul_le_mul hWw1 hHh1 hH0 (by linarith)
    have hIA2 : (min xmax1 xmax2 - max xmin1 xmin2) *
        (min ymax1 ymax2 - max ymin1 ymin2) ≤
        (xmax2 - xmin2) * (ymax2 - ymin2) :=
      mul_le_mul hWw2 hHh2 hH0 (by linarith)
    have hA10 : 0 ≤ (xmax1 - xmin1) * (ymax1 - ymin1) :=
      mul_nonneg (by linarith) (by linarith)
    have hA20 : 0 ≤ (xmax2 - xmin2) * (ymax2 - ymin2) :=
      mul_nonneg (by linarith) (by linarith)
    have hU : 0 < (xmax1 - xmin1) * (ymax1 - ymin1) +
        (xmax2 - xmin2) * (ymax2 - ymin2) -
        (min xmax1 xmax2 - max xmin1 xmin2) *
          (min ymax1 ymax2 - max ymin1 ymin2) := by
      rcases hpos with hp | hp
      · linarith
      · linarith
    first
    | exact absurd g5 (by intro hg; linarith)
    | { refine ⟨_, rfl, ?_⟩
        intro hz
        rcases hz with hz | hz
        · have : (min xmax1 xmax2 - max xmin1 xmin2) *
              (min ymax1 ymax2 - max ymin1 ymin2) = 0 := le_antisymm
            (by rw [hz] at hIA1; exact hIA1) hI0
          rw [this, zero_div]
        · have : (min xmax1 xmax2 - max xmin1 xmin2) *
              (min ymax1 ymax2 - max ymin1 ymin2) = 0 := le_antisymm
            (by rw [hz] at hIA2; exact hIA2) hI0
          rw [this, zero_div] } }

/-- C5 counterexample: a zero-width box crossing a zero-height box — both
well-formed, both of zero area — passes all four guards with zero
intersection AND zero union, so `jaccard_overlap` divides 0 by 0 and raises
`ZeroDivisionError` instead of returning overlap 0. -/
theorem jaccard_divzero_crossing :
    jaccard_overlap (2, 2, 0, 4) (1, 3, 2, 2) = .error .zeroDivisionError ∧
    ((2 : ℚ) - 2) * (4 - 0) = 0 ∧ ((3 : ℚ) - 1) * (2 - 2) = 0 := by
  norm_num [jaccard_overlap]

/-- C5 witness: the amended theorem applied to two identical 10x10 boxes. -/
theorem jaccard_no_divzero_witness :
    ∃ r, jaccard_overlap (0, 10, 0, 10) (0, 10, 0, 10) = .ok r ∧
      ((((10 : ℚ) - 0) * (10 - 0) = 0 ∨ ((10 : ℚ) - 0) * (10 - 0) = 0) →
        r = 0) :=
  jaccard_no_divzero 0 10 0 10 0 10 0 10 (by norm_num) (by norm_num)
    (by norm_num) (by norm_num) (Or.inl (by norm_num))

/-- C8 (amended): `jaccard_overlap` performs no validation of its inputs: a
malformed first box (xmax < xmin) whose `xmax1 ≤ xmin2` silently yields the
numeric result 0 — no `DomainError` (or any error) is raised. -/
theorem jaccard_malformed_returns_zero
    (xmin1 xmax1 ymin1 ymax1 xmin2 xmax2 ymin2 ymax2 : ℚ)
    (hmal : xmax1 < xmin1) (hle : xmax1 ≤ xmin2) :
    jaccard_overlap (xmin1, xmax1, ymin1, ymax1)
      (xmin2, xmax2, ymin2, ymax2) = .ok 0 := by
  simp only [jaccard_overlap]
  by_cases g1 : xmax2 ≤ xmin1
  · rw [if_pos g1]
  · rw [if_neg g1, if_pos hle]

/-- C8 counterexample: the malformed box `(xmin, xmax, ymin, ymax) =
(3, 1, 0, 2)` (xmax < xmin) fed to `jaccard_overlap` produces the numeric
result 0 — the function does not fail with a `DomainError`. -/
theorem jaccard_malformed_claim_false :
    ((1 : ℚ) < 3) ∧ jaccard_overlap (3, 1, 0, 2) (1, 4, 0, 2) = .ok 0 := by
  constructor
  · norm_num
  · norm_num [jaccard_overlap]

/-- C8 witness: the amended theorem applied at a concrete malformed box. -/
theorem jaccard_malformed_witness :
    jaccard_overlap (5, 0, 0, 1) (0, 10, 0, 1) = .ok 0 :=
  jaccard_malformed_returns_zero 5 0 0 1 0 10 0 1 (by norm_num) (by norm_num)

/-- A ground-truth box identical to `anchorUnit` (absolute (250,750,250,750)
under the 1000x1000 reference). -/
def boxUnit : GBox ℚ := ⟨⟨5/10, 5/10⟩, ⟨5/10, 5/10⟩⟩

/-- An anchor coinciding with `boxUnit`, overlap exactly 1. -/
def anchorUnit : Anchor ℚ :=
  { center := ⟨5/10, 5/10⟩, size := ⟨5/10, 5/10⟩, x := 0, y := 0,
    scale := 1, map := 0 }

/-- A ground-truth box whose absolute coordinates are (0, 2, 0, 10). -/
def boxThin : GBox ℚ := ⟨⟨1/1000, 1/200⟩, ⟨1/500, 1/100⟩⟩

/-- A degenerate anchor with negative height: its absolute coordinates are
the inverted rectangle (1, 3, 8, 2), passing all four guards against
`boxThin` and giving the negative overlap -3/7. -/
def anchorNeg : Anchor ℚ :=
  { center := ⟨1/500, 1/200⟩, size := ⟨1/500, -3/500⟩, x := 0, y := 0,
    scale := 1, map := 0 }

/-- A ground-truth box with absolute coordinates (0, 200, 0, 200). -/
def boxLeft : GBox ℚ := ⟨⟨1/10, 1/10⟩, ⟨1/5, 1/5⟩⟩

/-- An anchor with absolute coordinates (800, 1000, 800, 1000), disjoint
from `boxLeft` (overlap exactly 0). -/
def anchorFar : Anchor ℚ :=
  { center := ⟨9/10, 9/10⟩, size := ⟨1/5, 1/5⟩, x := 0, y := 0,
    scale := 1, map := 0 }

/-- C3 counterexample: against `boxThin`, the degenerate `anchorNeg` has
overlap -3/7 ≠ 0, and `compute_overlap` installs `best = Score(0, -3/7)` —
`best` is present although NO anchor attains any positive overlap, so `best`
does not pair an index attaining "the maximum positive overlap". -/
theorem match_best_claim_false :
    compute_overlap boxThin [anchorNeg] (1/2) =
      .ok ⟨some ⟨0, -3/7⟩, []⟩ ∧
    anchorOverlap (prop2abs boxThin.center boxThin.size imgSizeRef) anchorNeg
      = .ok (-3/7) ∧
    ¬ (0 < (-3/7 : ℚ)) := by
  refine ⟨?_, ?_, by norm_num⟩
  · norm_num [compute_overlap, overlapLoop, anchorOverlap, jaccard_overlap,
      prop2abs, imgSizeRef, bestStep, boxThin, anchorNeg]
  · norm_num [anchorOverlap, jaccard_overlap, prop2abs, imgSizeRef, boxThin,
      anchorNeg]

/-- C3 witness: the amended theorem applied at `boxUnit` matched against the
single coinciding anchor `anchorUnit` with threshold 1/2. -/
theorem match_best_spec_witness :
    (⟨some ⟨0, 1⟩, [⟨0, 1⟩]⟩ : Overlap).best = none ↔
      ∀ a ∈ [anchorUnit], anchorOverlap
        (prop2abs boxUnit.center boxUnit.size imgSizeRef) a = .ok 0 :=
  (match_best_spec boxUnit [anchorUnit] (1/2) ⟨some ⟨0, 1⟩, [⟨0, 1⟩]⟩
    (by norm_num [compute_overlap, overlapLoop, anchorOverlap,
      jaccard_overlap, prop2abs, imgSizeRef, bestStep, boxUnit,
      anchorUnit])).1

/-- C4 counterexample: with threshold -1, the zero-overlap anchor
`anchorFar` satisfies "overlap strictly exceeds the threshold" (0 > -1), yet
`good` comes back empty because the loop `continue`s on zero overlap — the
claim's unrestricted form is false. -/
theorem match_good_claim_false :
    compute_overlap boxLeft [anchorFar] (-1) = .ok ⟨none, []⟩ ∧
    anchorOverlap (prop2abs boxLeft.center boxLeft.size imgSizeRef) anchorFar
      = .ok 0 ∧
    (-1 : ℚ) < 0 := by
  refine ⟨?_, ?_, by norm_num⟩
  · norm_num [compute_overlap, overlapLoop, anchorOverlap, jaccard_overlap,
      prop2abs, imgSizeRef, bestStep, boxLeft, anchorFar]
  · norm_num [anchorOverlap, jaccard_overlap, prop2abs, imgSizeRef, boxLeft,
      anchorFar]

/-- C4 witness: the amended theorem applied at `boxUnit` and `anchorUnit`
(overlap 1, threshold 1/2): the Score (0, 1) belongs to `good`. -/
theorem match_good_spec_witness :
    (⟨0, 1⟩ : Score) ∈ (⟨some ⟨0, 1⟩, [⟨0, 1⟩]⟩ : Overlap).good :=
  (match_good_spec boxUnit [anchorUnit] (1/2) ⟨some ⟨0, 1⟩, [⟨0, 1⟩]⟩
    (by norm_num [compute_overlap, overlapLoop, anchorOverlap,
      jaccard_overlap, prop2abs, imgSizeRef, bestStep, boxUnit,
      anchorUnit])).2.1 0 anchorUnit 1 rfl
    (by norm_num [anchorOverlap, jaccard_overlap, prop2abs, imgSizeRef,
      boxUnit, anchorUnit])
    (by norm_num) (by norm_num)

/-- Python `compute_location`: the 4-component regression target
`(dx, dy, dw, dh)`, modelled over the reals (`log` is the real logarithm,
exact where Python uses floats). -/
noncomputable def compute_location (box : GBox ℝ) (anchor : Anchor ℝ) :
    Fin 4 → ℝ :=
  ![(box.center.x - anchor.center.x) / anchor.size.w,
    (box.center.y - anchor.center.y) / anchor.size.h,
    Real.log (box.size.w / anchor.size.w),
    Real.log (box.size.h / anchor.size.h)]

/-- C7: for every anchor with strictly positive width and height and every
delta vector, decoding a box as center = anchor.center + delta·anchor.size
and size = anchor.size·e^delta and re-encoding it with `compute_location`
reproduces the original delta vector exactly (over the reals). -/
theorem compute_location_roundtrip (anchor : Anchor ℝ) (dx dy dw dh : ℝ)
    (hw : 0 < anchor.size.w) (hh : 0 < anchor.size.h) :
    compute_location
      ⟨⟨anchor.center.x + dx * anchor.size.w,
        anchor.center.y + dy * anchor.size.h⟩,
       ⟨anchor.size.w * Real.exp dw, anchor.size.h * Real.exp dh⟩⟩ anchor =
      ![dx, dy, dw, dh] := by
  have hw0 : anchor.size.w ≠ 0 := ne_of_gt hw
  have hh0 : anchor.size.h ≠ 0 := ne_of_gt hh
  funext i
  fin_cases i
  · show (anchor.center.x + dx * anchor.size.w - anchor.center.x) /
      anchor.size.w = dx
    field_simp
  · show (anchor.center.y + dy * anchor.size.h - anchor.center.y) /
      anchor.size.h = dy
    field_simp
  · show Real.log (anchor.size.w * Real.exp dw / anchor.size.w) = dw
    rw [mul_div_cancel_left₀ _ hw0, Real.log_exp]
  · show Real.log (anchor.size.h * Real.exp dh / anchor.size.h) = dh
    rw [mul_div_cancel_left₀ _ hh0, Real.log_exp]

/-- C7 witness: the round-trip theorem applied at the unit anchor and the
zero delta vector. -/
theorem compute_location_roundtrip_witness :
    compute_location
      ⟨⟨(0 : ℝ) + 0 * 1, (0 : ℝ) + 0 * 1⟩,
       ⟨(1 : ℝ) * Real.exp 0, (1 : ℝ) * Real.exp 0⟩⟩
      ⟨⟨0, 0⟩, ⟨1, 1⟩, 0, 0, 1, 0⟩ = ![0, 0, 0, 0] :=
  compute_location_roundtrip ⟨⟨0, 0⟩, ⟨1, 1⟩, 0, 0, 1, 0⟩ 0 0 0 0
    (by norm_num) (by norm_num)

/-- C9: `get_preset_by_name` returns the registered immutable preset for
every registered name — in particular the built-in 300x300 and 500x500
presets — and fails with the unknown-preset error (the code's
`RuntimeError('No such preset: ...')`, the concrete rendering of the spec's
ConfigError) for every unregistered name; it is a pure function (no side
effects). -/
theorem get_preset_spec :
    get_preset_by_name "vgg300" = .ok vgg300 ∧
    get_preset_by_name "vgg500" = .ok vgg500 ∧
    (∀ pname p, (pname, p) ∈ SSD_PRESETS →
      get_preset_by_name pname = .ok p) ∧
    (∀ pname, pname ∉ SSD_PRESETS.map Prod.fst →
      get_preset_by_name pname =
        .error (.runtimeError ("No such preset: " ++ pname))) := by
  refine ⟨rfl, rfl, ?_, ?_⟩
  · intro pname p hmem
    simp only [SSD_PRESETS, List.mem_cons, List.not_mem_nil, or_false,
      Prod.mk.injEq] at hmem
    rcases hmem with ⟨h1, h2⟩ | ⟨h1, h2⟩ <;> subst h1 <;> subst h2 <;> rfl
  · intro pname hmem
    simp only [SSD_PRESETS, List.map_cons, List.map_nil, List.mem_cons,
      List.not_mem_nil, or_false, not_or] at hmem
    obtain ⟨h1, h2⟩ := hmem
    have b1 : (pname == "vgg300") = false := beq_eq_false_iff_ne.mpr h1
    have b2 : (pname == "vgg500") = false := beq_eq_false_iff_ne.mpr h2
    simp [get_preset_by_name, SSD_PRESETS, List.lookup, b1, b2]

/-- C9 witness: the theorem applied at a registered and an unregistered
name. -/
theorem get_preset_spec_witness :
    get_preset_by_name "vgg300" = .ok vgg300 ∧
    get_preset_by_name "nonesuch" =
      .error (.runtimeError ("No such preset: " ++ "nonesuch")) :=
  ⟨get_preset_spec.2.2.1 "vgg300" vgg300 (by simp [SSD_PRESETS]),
   get_preset_spec.2.2.2 "nonesuch" (by simp [SSD_PRESETS])⟩
